import Mathlib

/-!
Verification of the asksage-cli dataset-name resolution and response
normalization logic, shallowly embedding `src/asksage_cli/dataset_utils.py`,
`src/asksage_cli/commands/datasets.py`, `src/asksage_cli/commands/train.py`
and `src/asksage_cli/mock_client.py`.
-/

namespace AskSage

/-- Python strings are modelled as lists of characters. -/
abbrev Str := List Char

/-- A Python value as it appears in the remote API responses handled by the
CLI: `None`, booleans, integers, decimal float literals (`float m d` denotes
the literal `m * 10^(-d)`), strings, lists, and dicts modelled as association
lists with string keys (keys are unique in every value the code builds). -/
inductive PyVal where
  | none
  | bool (b : Bool)
  | int (n : Int)
  | float (mant : Int) (dec : Nat)
  | str (s : Str)
  | list (elems : List PyVal)
  | dict (entries : List (Str × PyVal))

def statusK : Str := "status".data
def responseK : Str := "response".data
def errorK : Str := "error".data
def messageK : Str := "message".data
def successK : Str := "success".data

/-- Python `d.get(k)` on a dict modelled as an association list (first match; Python
dict keys are unique so the choice of match is immaterial). Returns
`Option.none` when the key is absent. -/
def dictGet (entries : List (Str × PyVal)) (k : Str) : Option PyVal :=
  match entries with
  | [] => Option.none
  | (k', v) :: rest => if k' = k then some v else dictGet rest k

/-- Python truthiness of a value. -/
def truthy : PyVal → Bool
  | .none => false
  | .bool b => b
  | .int n => decide (n ≠ 0)
  | .float m _ => decide (m ≠ 0)
  | .str s => decide (s ≠ [])
  | .list xs => !xs.isEmpty
  | .dict es => !es.isEmpty

/-- Python `v >= 400`: defined for numbers (`True`/`False` count as `1`/`0`),
raises `TypeError` for every other type. -/
def pyGe400 : PyVal → Except Unit Bool
  | .int n => .ok (decide (400 ≤ n))
  | .bool _ => .ok false
  | .float m d => .ok (decide (400 * (10 : Int) ^ d ≤ m))
  | _ => .error ()

/-- Python `s == v` where `s` is a string: equal only to an equal string. -/
def strEqVal (s : Str) : PyVal → Bool
  | .str t => decide (s = t)
  | _ => false

/-- Whether `needle` occurs at the front of `hay`. -/
def subAt : Str → Str → Bool
  | [], _ => true
  | _ :: _, [] => false
  | a :: as, b :: bs => a = b && subAt as bs

/-- Whether `needle` occurs somewhere in `hay` (Python `needle in hay` on strings). -/
def subStr (needle : Str) : Str → Bool
  | [] => decide (needle = [])
  | c :: rest => subAt needle (c :: rest) || subStr needle rest

/-- Python `s in v` for a string `s`: list membership, substring test on a
string, key membership on a dict; raises `TypeError` on other types. -/
def pyContains (s : Str) : PyVal → Except Unit Bool
  | .list xs => .ok (xs.any (strEqVal s))
  | .str t => .ok (subStr s t)
  | .dict es => .ok (es.any (fun e => decide (e.1 = s)))
  | _ => .error ()

/-- The literal part `"_" ++ name ++ "_content"` that must follow the digit
run in the alias pattern. -/
def aliasSuf (name : Str) : Str := '_' :: (name ++ "_content".data)

/-- The candidate digit run of an alias match: what stands between the
12-character literal `"user_custom_"` and the literal tail; the lengths of
the fixed parts determine this split uniquely. -/
def aliasMid (name s : Str) : Str :=
  (s.drop 12).take (s.length - (12 + (aliasSuf name).length))

/-- Matching `user_custom_\d+_<name>_content` (with `<name>` escaped by
`re.escape`, hence literal) against the whole of `s`, newline handling
aside: `s` matches iff it decomposes as `"user_custom_" ++ mid ++ "_" ++
name ++ "_content"` with `mid` one or more digits, and that decomposition is
unique, so checking it at the length-determined split is exact. -/
def aliasMatchCore (name s : Str) : Bool :=
  decide (aliasMid name s ≠ []) && (aliasMid name s).all Char.isDigit &&
    decide (s = "user_custom_".data ++ (aliasMid name s ++ aliasSuf name))

/-- Python `re.match(rf"user_custom_\d+_{re.escape(name)}_content$", s)` viewed as a
boolean: Python's `$` also matches just before a newline that ends the
string. -/
def aliasMatch (name s : Str) : Bool :=
  aliasMatchCore name s ||
    (decide (s.getLast? = some '\n') && aliasMatchCore name s.dropLast)

/-- The comprehension `[ds for ds in elems if re.match(pattern, ds)]`:
`re.match` raises `TypeError` on a non-string element, which aborts the
comprehension. -/
def collectMatches (name : Str) : List PyVal → Except Unit (List Str)
  | [] => .ok []
  | .str s :: rest =>
    match collectMatches name rest with
    | .error e => .error e
    | .ok ms => .ok (if aliasMatch name s then s :: ms else ms)
  | _ :: _ => .error ()

/-- Lines 25–33 of `dataset_utils.resolve_dataset_name`: extract the
`all_datasets` value from the listing response. `.ok Option.none` models the
early `return None` branches (error status, or a response that is neither
dict nor list); `.error` models a raised exception (non-numeric status). -/
def getAllDatasets : PyVal → Except Unit (Option PyVal)
  | .dict es =>
    match pyGe400 ((dictGet es statusK).getD (.int 200)) with
    | .error e => .error e
    | .ok true => .ok Option.none
    | .ok false => .ok (some ((dictGet es responseK).getD (.list [])))
  | .list xs => .ok (some (.list xs))
  | _ => .ok Option.none

/-- Lines 35–51 of `resolve_dataset_name`: exact membership test, then the
pattern-match comprehension; `matches[0]` is returned both for exactly one
and for several matches, `None` for zero. -/
def resolveFrom (all : PyVal) (name : Str) : Except Unit (Option Str) :=
  match pyContains name all with
  | .error e => .error e
  | .ok true => .ok (some name)
  | .ok false =>
    match pyElems all with
    | .error e => .error e
    | .ok elems =>
      match collectMatches name elems with
      | .error e => .error e
      | .ok [] => .ok Option.none
      | .ok (m :: _) => .ok (some m)
where
  /-- Python iteration over the container: list elements, characters of a
  string (as one-character strings), keys of a dict; raises on other types. -/
  pyElems : PyVal → Except Unit (List PyVal)
    | .list xs => .ok xs
    | .str t => .ok (t.map (fun ch => .str [ch]))
    | .dict es => .ok (es.map (fun e => .str e.1))
    | _ => .error ()

/-- The body of the `try:` block of `resolve_dataset_name`. -/
def resolveBody (resp : PyVal) (name : Str) : Except Unit (Option Str) :=
  match getAllDatasets resp with
  | .error e => .error e
  | .ok Option.none => .ok Option.none
  | .ok (some all) => resolveFrom all name

/-- Function `dataset_utils.resolve_dataset_name`. The single `client.get_datasets()`
call is abstracted as its outcome `listResult` (`.error` = the call raised).
Any exception inside the `try:` block yields the candidate unchanged. -/
def resolve_dataset_name (listResult : Except Unit PyVal) (name : Str) :
    Option Str :=
  match (match listResult with
         | .error e => .error e
         | .ok resp => resolveBody resp name : Except Unit (Option Str)) with
  | .error _ => some name
  | .ok r => r

/-- One `resolve_dataset_name` run against a queue of pending
`get_datasets()` outcomes: the source contains exactly one call site inside
the function, so exactly the head outcome is consumed and the rest of the
queue is untouched. -/
def resolveConsume (queue : List (Except Unit PyVal)) (name : Str) :
    Option (Option Str × List (Except Unit PyVal)) :=
  match queue with
  | [] => Option.none
  | r :: rest => some (resolve_dataset_name r name, rest)

/-- The only possible capture of `(.+)_content` against the whole of `r`:
`r` minus its last eight characters. -/
def capture8 (r : Str) : Str := r.take (r.length - 8)

/-- The inner match of `(.+)_content` against the whole of `r` (no trailing
newline consumed here): a full match forces `"_content"` to be the last
eight characters, so the capture is uniquely `r` minus that suffix; `.` does
not match a newline, and `.+` needs at least one character. -/
def reExtractCore (r : Str) : Option Str :=
  if capture8 r ≠ [] ∧ '\n' ∉ capture8 r ∧ r = capture8 r ++ "_content".data
  then some (capture8 r)
  else Option.none

/-- The `(.+)_content$` part of the extraction regex against `r`: Python's
`$` also matches just before a newline that ends the string, and `.` cannot
match that newline, so the two forms are mutually exclusive. -/
def reExtractDollar (r : Str) : Option Str :=
  match reExtractCore r with
  | some x => some x
  | Option.none =>
    if r.getLast? = some '\n' then reExtractCore r.dropLast
    else Option.none

/-- After the digit run, the regex requires a literal `_` and then hands the
rest to `(.+)_content$`. -/
def reExtractAfterDigits : Str → Option Str
  | c :: r3 => if c = '_' then reExtractDollar r3 else Option.none
  | [] => Option.none

/-- Python `re.match(r"user_custom_\d+_(.+)_content$", s)`, returning the capture of
group 1 when the match succeeds. Within a regex match `\d+` must equal the
maximal digit run after the 12-character literal `"user_custom_"` (a shorter
run would have to be followed by a digit, never by `_`). -/
def reExtract (s : Str) : Option Str :=
  if s.take 12 = "user_custom_".data then
    if (s.drop 12).takeWhile Char.isDigit = [] then Option.none
    else reExtractAfterDigits ((s.drop 12).dropWhile Char.isDigit)
  else Option.none

/-- Function `dataset_utils.extract_short_name`. -/
def extract_short_name (s : Str) : Str :=
  match reExtract s with
  | some a => a
  | Option.none => s

/-- The full identifier `f"user_custom_{n}_{alias}_content"` built from a
tenant id and an alias. -/
def fullId (n : Nat) (nick : Str) : Str :=
  "user_custom_".data ++ ((Nat.repr n).data ++ ('_' :: (nick ++ "_content".data)))

/-- A string matches the full-identifier regex
`user_custom_\d+_(.+)_content$` (as used by `extract_short_name`): some split
into the literal parts, a nonempty digit run, a nonempty newline-free capture,
and an optional final newline absorbed by `$`. -/
def matchesFullPattern (s : Str) : Prop :=
  ∃ d x t, d ≠ [] ∧ (∀ c ∈ d, c.isDigit) ∧ x ≠ [] ∧ '\n' ∉ x ∧
    (t = [] ∨ t = ['\n']) ∧
    s = "user_custom_".data ++ (d ++ ('_' :: (x ++ "_content".data))) ++ t

/-- The uniform view of a response produced by the status-convention
normalization in `commands/datasets._list_datasets` (the same shape-handling
appears in `dataset_utils` and `commands/query`). -/
structure Normalized where
  ok : Bool
  payload : PyVal
  errorMsg : Option PyVal

/-- Python `response.get('error') or response.get('message', 'Unknown error')`:
Python `or` keeps the first operand only when it is truthy. -/
def extractErrorMsg (es : List (Str × PyVal)) : PyVal :=
  let e := (dictGet es errorK).getD .none
  if truthy e then e else (dictGet es messageK).getD (.str "Unknown error".data)

/-- The status-convention normalization of a mapping response, from
`_list_datasets` lines 110–123: failure iff `status >= 400` (default status
200), error message via `extractErrorMsg`, payload `response.get('response',
[])` on success; a non-numeric status raises. -/
def normalizeStatusDict (es : List (Str × PyVal)) : Except Unit Normalized :=
  match pyGe400 ((dictGet es statusK).getD (.int 200)) with
  | .error e => .error e
  | .ok true => .ok ⟨false, PyVal.none, some (extractErrorMsg es)⟩
  | .ok false => .ok ⟨true, (dictGet es responseK).getD (.list []), Option.none⟩

/-- Modelled from the spec (§4.2 as amended): for a mapping whose `status`
key holds the integer `n`, failure iff `n >= 400`; the error is the `error`
value if present and truthy, else the `message` value if present, else
`"Unknown error"`; the payload is the `response` value if present, else the
empty list. -/
def normalizeSpecFn (es : List (Str × PyVal)) (n : Int) : Normalized :=
  if 400 ≤ n then
    { ok := false
      payload := PyVal.none
      errorMsg := some
        (match dictGet es errorK with
         | some e =>
           if truthy e then e
           else
             match dictGet es messageK with
             | some m => m
             | Option.none => .str "Unknown error".data
         | Option.none =>
           match dictGet es messageK with
           | some m => m
           | Option.none => .str "Unknown error".data) }
  else
    { ok := true
      payload :=
        match dictGet es responseK with
        | some p => p
        | Option.none => .list []
      errorMsg := Option.none }

/-- From `commands/train.py` lines 85 and 140: a training response counts as a
success iff it is a dict whose `success` value is truthy. -/
def trainSuccessResp : PyVal → Bool
  | .dict es => truthy ((dictGet es successK).getD .none)
  | _ => false

/-- Outcome of one file in the `_train_directory` loop: a raised call
(`except` branch) or an unsuccessful response both count as failed. -/
def trainRespSuccess : Except Unit PyVal → Bool
  | .error _ => false
  | .ok v => trainSuccessResp v

/-- Python `response.get('error', 'Unknown error')` used for the failure message in
both `_train_file` and `_train_directory` when the response is a dict. -/
def trainFailMsg (es : List (Str × PyVal)) : PyVal :=
  (dictGet es errorK).getD (.str "Unknown error".data)

/-- The `for file_path in files_to_train:` loop of `_train_directory`:
strictly sequential, one `train_with_file` call per file; the accumulator
carries the trace of files already sent plus the success/failure counters. -/
def trainDirLoop (train : Str → Except Unit PyVal) :
    List Str → List Str × Nat × Nat → List Str × Nat × Nat
  | [], acc => acc
  | f :: fs, (trace, succ, fail) =>
    if trainRespSuccess (train f) then
      trainDirLoop train fs (trace ++ [f], succ + 1, fail)
    else
      trainDirLoop train fs (trace ++ [f], succ, fail + 1)

/-- From `_train_directory` lines 127–152 on an already-collected file list:
returns the call trace and the final `(successful, failed)` counters. -/
def trainDirectory (train : Str → Except Unit PyVal) (files : List Str) :
    List Str × Nat × Nat :=
  trainDirLoop train files ([], 0, 0)

/-- Lines 154–155: `sys.exit(1)` iff at least one file failed, else a normal
return (exit status 0). -/
def trainDirExitCode (counts : List Str × Nat × Nat) : Nat :=
  if counts.2.2 > 0 then 1 else 0

/-- The embedding list `[0.1, 0.2, 0.3] * 100` of the mock client. -/
def mockEmbedding : List PyVal :=
  (List.replicate 100 [PyVal.float 1 1, PyVal.float 2 1, PyVal.float 3 1]).flatten

/-- The entries of the dict returned by
`mock_client.MockAskSageClient.train_with_file` when the file exists. -/
def mockTrainOkEntries (fileSize : Nat) (path : Str) (dataset : PyVal) :
    List (Str × PyVal) :=
  [(statusK, .int 200),
   (responseK, .str ("Successfully trained file ".data ++ path)),
   ("embedding".data, .list mockEmbedding),
   ("tokens_used".data, .int (min (fileSize / 4) 1000)),
   ("dataset".data, dataset)]

/-- Method `MockAskSageClient.train_with_file`: a 404 error dict when the file does
not exist, otherwise a status-200 dict that carries no `success` key. -/
def mockTrainWithFile (fileExists : Bool) (fileSize : Nat) (path : Str)
    (dataset : PyVal) : PyVal :=
  if fileExists then .dict (mockTrainOkEntries fileSize path dataset)
  else .dict [(statusK, .int 404),
              (errorK, .str ("File not found: ".data ++ path))]

example : extract_short_name "user_custom_123_sage-cli_content".data =
    "sage-cli".data := by decide

example : extract_short_name "plain-name".data = "plain-name".data := by
  decide

example : extract_short_name "user_custom_0__content".data =
    "user_custom_0__content".data := by decide

example : reExtract "user_custom_1_a_content_content".data =
    some "a_content".data := by decide

example :
    resolve_dataset_name
      (.ok (.list [.str "user_custom_1_docs_content".data,
                   .str "user_custom_1_notes_content".data]))
      "docs".data = some "user_custom_1_docs_content".data := by decide

example :
    resolve_dataset_name
      (.ok (.list [.str "user_custom_1_docs_content".data]))
      "missing".data = Option.none := by decide

example :
    resolve_dataset_name (.ok (.dict [(statusK, .int 500)])) "x".data =
      Option.none := by decide

example :
    resolve_dataset_name (.error ()) "x".data = some "x".data := by decide

lemma collectMatches_map_str (name : Str) (l : List Str) :
    collectMatches name (l.map PyVal.str) = .ok (l.filter (aliasMatch name)) := by
  induction l with
  | nil => rfl
  | cons x xs ih =>
    by_cases h : aliasMatch name x = true
    · simp [collectMatches, ih, List.filter_cons, h]
    · simp [collectMatches, ih, List.filter_cons, h]

lemma any_strEqVal_map (c : Str) (l : List Str) :
    (l.map PyVal.str).any (strEqVal c) = decide (c ∈ l) := by
  induction l with
  | nil => simp
  | cons x xs ih =>
    simp only [List.map_cons, List.any_cons, ih, strEqVal]
    by_cases h : c = x <;> simp [h]

/-- Evaluation of `resolve_dataset_name` on a listing that is a bare list of
identifier strings: exact membership wins, otherwise the first
pattern-matching entry, otherwise the not-found outcome. -/
lemma resolve_list_strs (l : List Str) (c : Str) :
    resolve_dataset_name (.ok (.list (l.map PyVal.str))) c =
      (if c ∈ l then some c
       else
         match l.filter (aliasMatch c) with
         | [] => Option.none
         | m :: _ => some m) := by
  have hcol := collectMatches_map_str c l
  by_cases hmem : c ∈ l
  · have hany : (l.map PyVal.str).any (strEqVal c) = true := by
      simp [any_strEqVal_map, hmem]
    simp [resolve_dataset_name, resolveBody, getAllDatasets, resolveFrom,
      pyContains, hany, hmem]
  · have hany : (l.map PyVal.str).any (strEqVal c) = false := by
      simp [any_strEqVal_map, hmem]
    simp only [resolve_dataset_name, resolveBody, getAllDatasets,
      resolveFrom, pyContains, hany, hcol, resolveFrom.pyElems, if_neg hmem]
    cases hf : l.filter (aliasMatch c) <;> simp [hf]

/-- C5: for every listing and every candidate string `x` that appears in the
listed identifiers, `resolve` returns `x` itself — exact match takes
precedence over alias-pattern matching, whatever else the listing holds. -/
theorem claim_C5_exact_match_wins (l : List Str) (x : Str) (hx : x ∈ l) :
    resolve_dataset_name (.ok (.list (l.map PyVal.str))) x = some x := by
  rw [resolve_list_strs, if_pos hx]

theorem claim_C5_witness :
    resolve_dataset_name
      (.ok (.list [.str "user_custom_1_notes_content".data,
                   .str "user_custom_1_user_custom_1_notes_content_content".data]))
      "user_custom_1_notes_content".data =
      some "user_custom_1_notes_content".data :=
  claim_C5_exact_match_wins
    ["user_custom_1_notes_content".data,
     "user_custom_1_user_custom_1_notes_content_content".data]
    "user_custom_1_notes_content".data (by decide)

/-- C7: resolving a candidate that matches nothing in a successfully listed
set of identifiers — neither exactly nor via the alias pattern — returns the
distinct not-found outcome `none` and never raises; the empty listing
(`l = []`) is the special case in which both hypotheses hold trivially. -/
theorem claim_C7_not_found
    (l : List Str) (c : Str) (hmem : c ∉ l)
    (hpat : l.filter (aliasMatch c) = []) :
    resolve_dataset_name (.ok (.list (l.map PyVal.str))) c = Option.none := by
  rw [resolve_list_strs, if_neg hmem, hpat]

theorem claim_C7_witness :
    resolve_dataset_name
      (.ok (.list [.str "user_custom_1_docs_content".data]))
      "missing".data = Option.none ∧
      resolve_dataset_name (.ok (.list ([].map PyVal.str)))
        "anything".data = Option.none :=
  ⟨claim_C7_not_found ["user_custom_1_docs_content".data] "missing".data
    (by decide) (by decide),
   claim_C7_not_found [] "anything".data (by decide) (by decide)⟩

/-- C1 (counterexample): a listing response reporting failure — a mapping
with status 500 — makes `resolve` return the not-found outcome `none`, not
the candidate `"x"` unchanged as the claim states. -/
theorem claim_C1_counterexample :
    resolve_dataset_name (.ok (.dict [(statusK, .int 500)])) "x".data =
        Option.none ∧
      Option.none ≠ some "x".data := by
  constructor
  · decide
  · decide

/-- C1 (amended): when the underlying listing call raises, `resolve` returns
the candidate unchanged; but when the listing response reports failure under
normalization (a mapping whose integer status is at least 400), `resolve`
returns the not-found outcome `none`. -/
theorem claim_C1_listing_failure
    (c : Str) (es : List (Str × PyVal)) (n : Int)
    (hst : dictGet es statusK = some (.int n)) (hge : 400 ≤ n) :
    resolve_dataset_name (.error ()) c = some c ∧
      resolve_dataset_name (.ok (.dict es)) c = Option.none := by
  refine ⟨rfl, ?_⟩
  simp [resolve_dataset_name, resolveBody, getAllDatasets, hst, pyGe400, hge]

theorem claim_C1_witness :
    resolve_dataset_name (.error ()) "a".data = some "a".data ∧
      resolve_dataset_name (.ok (.dict [(statusK, .int 404)])) "a".data =
        Option.none :=
  claim_C1_listing_failure "a".data [(statusK, .int 404)] 404 rfl (by decide)

/-- C6 (counterexample): with the listing
`["x", "user_custom_1_x_content", "user_custom_2_x_content"]` and candidate
`"x"`, two listed identifiers match the alias pattern, yet `resolve` returns
the exact match `"x"`, not the first pattern match — so the claim fails as
stated for candidates that are themselves listed. -/
theorem claim_C6_counterexample :
    aliasMatch "x".data "user_custom_1_x_content".data = true ∧
      aliasMatch "x".data "user_custom_2_x_content".data = true ∧
      resolve_dataset_name
        (.ok (.list [.str "x".data,
                     .str "user_custom_1_x_content".data,
                     .str "user_custom_2_x_content".data]))
        "x".data = some "x".data ∧
      some "x".data ≠ some "user_custom_1_x_content".data := by
  refine ⟨by decide, by decide, by decide, by decide⟩

/-- C6 (amended): provided the candidate is not itself one of the listed
identifiers, when more than one listed identifier matches the alias pattern
`user_custom_<digits>_<candidate>_content`, `resolve` returns the first
matching identifier in listing order and reports no error. -/
theorem claim_C6_first_of_many
    (l : List Str) (c : Str) (m m' : Str) (rest : List Str)
    (hmem : c ∉ l)
    (hf : l.filter (aliasMatch c) = m :: m' :: rest) :
    resolve_dataset_name (.ok (.list (l.map PyVal.str))) c = some m := by
  rw [resolve_list_strs, if_neg hmem, hf]

theorem claim_C6_witness :
    resolve_dataset_name
      (.ok (.list [.str "user_custom_1_x_content".data,
                   .str "user_custom_2_x_content".data]))
      "x".data = some "user_custom_1_x_content".data :=
  claim_C6_first_of_many
    ["user_custom_1_x_content".data, "user_custom_2_x_content".data]
    "x".data "user_custom_1_x_content".data "user_custom_2_x_content".data []
    (by decide) (by decide)

lemma trainDirLoop_spec (train : Str → Except Unit PyVal)
    (files : List Str) (trace : List Str) (s f : Nat) :
    trainDirLoop train files (trace, s, f) =
      (trace ++ files,
       s + files.countP (fun x => trainRespSuccess (train x)),
       f + files.countP (fun x => !trainRespSuccess (train x))) := by
  induction files generalizing trace s f with
  | nil => simp [trainDirLoop]
  | cons x xs ih =>
    by_cases h : trainRespSuccess (train x) = true
    · simp [trainDirLoop, h, ih, List.countP_cons]
      omega
    · simp only [Bool.not_eq_true] at h
      simp [trainDirLoop, h, ih, List.countP_cons]
      omega

/-- C3: directory training issues exactly one remote call per collected file,
in file order (the call trace equals the file list), a failure on one file is
recorded while iteration continues (the two counters always partition the
whole file list), and for 3 files of which the remote call fails on exactly
one, the final counters are 2 successful / 1 failed with a non-zero exit
status. -/
theorem claim_C3_directory_training
    (train : Str → Except Unit PyVal) (files : List Str) :
    (trainDirectory train files).1 = files ∧
      (trainDirectory train files).2.1 =
        files.countP (fun x => trainRespSuccess (train x)) ∧
      (trainDirectory train files).2.2 =
        files.countP (fun x => !trainRespSuccess (train x)) ∧
      (files.length = 3 →
        files.countP (fun x => !trainRespSuccess (train x)) = 1 →
        (trainDirectory train files).2 = (2, 1) ∧
          trainDirExitCode (trainDirectory train files) ≠ 0) := by
  have h := trainDirLoop_spec train files [] 0 0
  unfold trainDirectory
  rw [h]
  refine ⟨by simp, by simp, by simp, ?_⟩
  intro h3 h1
  have hsum := List.length_eq_countP_add_countP
    (fun x => trainRespSuccess (train x)) files
  have hsum' : files.length =
      files.countP (fun x => trainRespSuccess (train x)) +
        files.countP (fun x => !trainRespSuccess (train x)) := by
    simpa using hsum
  constructor
  · have : files.countP (fun x => trainRespSuccess (train x)) = 2 := by omega
    simp [this, h1]
  · simp only [trainDirExitCode, h1]
    simp

/-- Three files used to witness the directory-training scenario. -/
def cTrainFiles : List Str := ["a.txt".data, "b.txt".data, "c.txt".data]

/-- A remote trainer that fails on `b.txt` and succeeds elsewhere. -/
def cTrain (f : Str) : Except Unit PyVal :=
  if f = "b.txt".data then
    .ok (.dict [(statusK, .int 500), (errorK, .str "boom".data)])
  else .ok (.dict [(successK, .bool true)])

theorem claim_C3_witness :
    (trainDirectory cTrain cTrainFiles).2 = (2, 1) ∧
      trainDirExitCode (trainDirectory cTrain cTrainFiles) ≠ 0 :=
  (claim_C3_directory_training cTrain cTrainFiles).2.2.2 (by decide)
    (by decide)

lemma dictGet_cons_eq {k : Str} (v : PyVal) (es : List (Str × PyVal)) :
    dictGet ((k, v) :: es) k = some v := by
  simp [dictGet]

lemma dictGet_cons_ne {k k' : Str} (v : PyVal) (es : List (Str × PyVal))
    (h : ¬k' = k) : dictGet ((k', v) :: es) k = dictGet es k := by
  simp [dictGet, h]

/-- C10: a training response counts as successful exactly when it is a
mapping with a truthy `success` value; a mapping without a `success` key —
such as the status-convention success the mock client's `train_with_file`
returns for an existing file (status 200, no `success` key) — is reported as
failed, with the error drawn from the `error` key and defaulting to
`"Unknown error"`. -/
theorem claim_C10_success_key_convention :
    (∀ v : PyVal, trainSuccessResp v = true ↔
      ∃ es, v = .dict es ∧ truthy ((dictGet es successK).getD .none) = true) ∧
      (∀ es, dictGet es successK = Option.none →
        trainSuccessResp (.dict es) = false) ∧
      (∀ es, dictGet es errorK = Option.none →
        trainFailMsg es = .str "Unknown error".data) ∧
      (∀ (fileSize : Nat) (path : Str) (dataset : PyVal),
        dictGet (mockTrainOkEntries fileSize path dataset) statusK =
            some (.int 200) ∧
          dictGet (mockTrainOkEntries fileSize path dataset) successK =
            Option.none ∧
          trainSuccessResp (mockTrainWithFile true fileSize path dataset) =
            false ∧
          trainFailMsg (mockTrainOkEntries fileSize path dataset) =
            .str "Unknown error".data) := by
  refine ⟨?_, ?_, ?_, ?_⟩
  · intro v
    cases v with
    | dict es =>
      constructor
      · intro h
        exact ⟨es, rfl, h⟩
      · rintro ⟨es', heq, h⟩
        cases heq
        exact h
    | none =>
      constructor
      · intro h
        exact absurd h (by simp [trainSuccessResp])
      · rintro ⟨es', heq, h⟩
        exact PyVal.noConfusion heq
    | bool b =>
      constructor
      · intro h
        exact absurd h (by simp [trainSuccessResp])
      · rintro ⟨es', heq, h⟩
        exact PyVal.noConfusion heq
    | int n =>
      constructor
      · intro h
        exact absurd h (by simp [trainSuccessResp])
      · rintro ⟨es', heq, h⟩
        exact PyVal.noConfusion heq
    | float m d =>
      constructor
      · intro h
        exact absurd h (by simp [trainSuccessResp])
      · rintro ⟨es', heq, h⟩
        exact PyVal.noConfusion heq
    | str s =>
      constructor
      · intro h
        exact absurd h (by simp [trainSuccessResp])
      · rintro ⟨es', heq, h⟩
        exact PyVal.noConfusion heq
    | list xs =>
      constructor
      · intro h
        exact absurd h (by simp [trainSuccessResp])
      · rintro ⟨es', heq, h⟩
        exact PyVal.noConfusion heq
  · intro es h
    simp [trainSuccessResp, h, truthy]
  · intro es h
    simp [trainFailMsg, h]
  · intro fileSize path dataset
    have hsucc : dictGet (mockTrainOkEntries fileSize path dataset) successK =
        Option.none := by
      rw [mockTrainOkEntries, dictGet_cons_ne _ _ (by decide),
        dictGet_cons_ne _ _ (by decide), dictGet_cons_ne _ _ (by decide),
        dictGet_cons_ne _ _ (by decide), dictGet_cons_ne _ _ (by decide)]
      rfl
    have herr : dictGet (mockTrainOkEntries fileSize path dataset) errorK =
        Option.none := by
      rw [mockTrainOkEntries, dictGet_cons_ne _ _ (by decide),
        dictGet_cons_ne _ _ (by decide), dictGet_cons_ne _ _ (by decide),
        dictGet_cons_ne _ _ (by decide), dictGet_cons_ne _ _ (by decide)]
      rfl
    refine ⟨?_, hsucc, ?_, ?_⟩
    · rw [mockTrainOkEntries, dictGet_cons_eq]
    · show trainSuccessResp (.dict (mockTrainOkEntries fileSize path dataset)) =
        false
      simp [trainSuccessResp, hsucc, truthy]
    · simp [trainFailMsg, herr]

theorem claim_C10_witness :
    trainSuccessResp (.dict [(statusK, .int 200)]) = false ∧
      trainFailMsg [(statusK, .int 200)] = .str "Unknown error".data ∧
      trainSuccessResp (mockTrainWithFile true 40 "doc.txt".data PyVal.none) =
        false :=
  ⟨claim_C10_success_key_convention.2.1 [(statusK, .int 200)]
      (by rw [dictGet_cons_ne _ _ (by decide)]; rfl),
   claim_C10_success_key_convention.2.2.1 [(statusK, .int 200)]
      (by rw [dictGet_cons_ne _ _ (by decide)]; rfl),
   (claim_C10_success_key_convention.2.2.2 40 "doc.txt".data
      PyVal.none).2.2.1⟩

/-- C2 (counterexample): two deviations from the claim. First, for
`{"status": 500, "error": ""}` the `error` key is present with value `""`,
yet the normalized error message is `"Unknown error"`, because the code uses
Python's falsy-sensitive `get('error') or get('message', 'Unknown error')`.
Second, for `{"status": 200}` (no `response` key) the payload is the empty
list, not the whole mapping. -/
theorem claim_C2_counterexample :
    normalizeStatusDict [(statusK, .int 500), (errorK, .str [])] =
        .ok ⟨false, PyVal.none, some (.str "Unknown error".data)⟩ ∧
      dictGet [(statusK, .int 500), (errorK, .str [])] errorK =
        some (.str []) ∧
      PyVal.str [] ≠ PyVal.str "Unknown error".data ∧
      normalizeStatusDict [(statusK, .int 200)] =
        .ok ⟨true, .list [], Option.none⟩ ∧
      PyVal.list [] ≠ PyVal.dict [(statusK, .int 200)] := by
  refine ⟨rfl, ?_, ?_, rfl, ?_⟩
  · rw [dictGet_cons_ne _ _ (by decide), dictGet_cons_eq]
  · intro h
    have : ([] : Str) = "Unknown error".data := by
      injection h
    exact absurd this (by decide)
  · intro h
    exact PyVal.noConfusion h

/-- C2 (amended): for every mapping whose `status` key holds an integer `n`,
the status-convention normalization reports failure iff `n >= 400`; the
error message is the `error` value if present and truthy, else the `message`
value if present, else `"Unknown error"`; the payload is the `response`
value when present, else the empty list. `normalizeSpecFn` states this
contract in the spec's terms and the code refines it. -/
theorem claim_C2_status_normalization
    (es : List (Str × PyVal)) (n : Int)
    (hst : dictGet es statusK = some (.int n)) :
    normalizeStatusDict es = .ok (normalizeSpecFn es n) := by
  unfold normalizeStatusDict normalizeSpecFn extractErrorMsg
  rw [hst]
  by_cases hge : 400 ≤ n
  · simp only [pyGe400, Option.getD_some, decide_eq_true hge, if_pos hge]
    cases he : dictGet es errorK with
    | none =>
      simp only [Option.getD_none, truthy, Bool.false_eq_true, if_false]
      cases hm : dictGet es messageK with
      | none => rfl
      | some m => rfl
    | some e =>
      simp only [Option.getD_some]
      by_cases ht : truthy e = true
      · simp [ht]
      · simp only [Bool.not_eq_true] at ht
        simp only [ht, Bool.false_eq_true, if_false]
        cases hm : dictGet es messageK with
        | none => rfl
        | some m => rfl
  · have : (decide (400 ≤ n)) = false := by simp [hge]
    simp only [pyGe400, Option.getD_some, this, if_neg hge]
    cases hr : dictGet es responseK with
    | none => rfl
    | some p => rfl

theorem claim_C2_witness :
    normalizeStatusDict [(statusK, .int 404), (messageK, .str "gone".data)] =
      .ok (normalizeSpecFn [(statusK, .int 404), (messageK, .str "gone".data)]
        404) :=
  claim_C2_status_normalization
    [(statusK, .int 404), (messageK, .str "gone".data)] 404
    (by rw [dictGet_cons_eq])

lemma digitChar_isDigit {d : Nat} (h : d < 10) :
    (Nat.digitChar d).isDigit = true := by
  interval_cases d <;> decide

lemma toDigitsCore_digits (fuel : Nat) :
    ∀ (n : Nat) (ds : List Char), (∀ c ∈ ds, c.isDigit = true) →
      ∀ c ∈ Nat.toDigitsCore 10 fuel n ds, c.isDigit = true := by
  induction fuel with
  | zero =>
    intro n ds hds
    simpa [Nat.toDigitsCore] using hds
  | succ f ih =>
    intro n ds hds c hc
    rw [Nat.toDigitsCore] at hc
    have hds' : ∀ c ∈ (Nat.digitChar (n % 10) :: ds), c.isDigit = true := by
      intro c hc'
      rcases List.mem_cons.mp hc' with h | h
      · subst h
        exact digitChar_isDigit (Nat.mod_lt _ (by norm_num))
      · exact hds c h
    by_cases h0 : n / 10 = 0
    · rw [if_pos h0] at hc
      exact hds' c hc
    · rw [if_neg h0] at hc
      exact ih (n / 10) _ hds' c hc

lemma toDigitsCore_ne_nil (fuel : Nat) :
    ∀ (n : Nat) (ds : List Char), Nat.toDigitsCore 10 (fuel + 1) n ds ≠ [] := by
  induction fuel with
  | zero =>
    intro n ds
    rw [Nat.toDigitsCore]
    by_cases h0 : n / 10 = 0
    · rw [if_pos h0]
      simp
    · rw [if_neg h0, Nat.toDigitsCore]
      simp
  | succ f ih =>
    intro n ds
    rw [Nat.toDigitsCore]
    by_cases h0 : n / 10 = 0
    · rw [if_pos h0]
      simp
    · rw [if_neg h0]
      exact ih (n / 10) _

/-- The decimal rendering of a natural number is a nonempty digit string. -/
lemma repr_digits (n : Nat) :
    (Nat.repr n).data ≠ [] ∧ ∀ c ∈ (Nat.repr n).data, c.isDigit = true := by
  have hdata : (Nat.repr n).data = Nat.toDigitsCore 10 (n + 1) n [] := rfl
  rw [hdata]
  exact ⟨toDigitsCore_ne_nil n n [], toDigitsCore_digits (n + 1) n [] (by simp)⟩

lemma takeWhile_all_append {α : Type} (p : α → Bool) (l : List α) (a : α)
    (t : List α) (hl : ∀ c ∈ l, p c = true) (ha : p a = false) :
    (l ++ a :: t).takeWhile p = l ∧ (l ++ a :: t).dropWhile p = a :: t := by
  induction l with
  | nil => simp [List.takeWhile_cons, List.dropWhile_cons, ha]
  | cons x xs ih =>
    have hx : p x = true := hl x (by simp)
    have ih' := ih fun c hc => hl c (by simp [hc])
    simp [List.takeWhile_cons, List.dropWhile_cons, hx, ih'.1, ih'.2]

lemma length_fullId (n : Nat) (nick : Str) :
    (fullId n nick).length =
      12 + ((Nat.repr n).data.length + (1 + (nick.length + 8))) := by
  have h12 : ("user_custom_".data).length = 12 := by decide
  have h8 : ("_content".data).length = 8 := by decide
  have hrl : (Nat.repr n).length = (Nat.repr n).data.length := rfl
  simp [fullId, List.length_append, h12, h8]
  omega

/-- Dropping the 12-character prefix from a string that starts with the
12-character literal recovers the remainder. -/
lemma drop12_append (X : Str) :
    ("user_custom_".data ++ X).drop 12 = X := by
  have h := List.drop_left "user_custom_".data X
  have h12 : ("user_custom_".data).length = 12 := by decide
  rwa [h12] at h

lemma take12_append (X : Str) :
    ("user_custom_".data ++ X).take 12 = "user_custom_".data := by
  have h := List.take_left "user_custom_".data X
  have h12 : ("user_custom_".data).length = 12 := by decide
  rwa [h12] at h

/-- At the constructed full identifier the length-determined split recovers
exactly the digit run. -/
lemma aliasMid_fullId (n : Nat) (nick : Str) :
    aliasMid nick (fullId n nick) = (Nat.repr n).data := by
  have hs : fullId n nick =
      "user_custom_".data ++
        ((Nat.repr n).data ++ aliasSuf nick) := rfl
  have hsuf : (aliasSuf nick).length = 1 + (nick.length + 8) := by
    have h8 : ("_content".data).length = 8 := by decide
    simp [aliasSuf, List.length_append, h8]
    omega
  have harith :
      (fullId n nick).length - (12 + (aliasSuf nick).length) =
        ((Nat.repr n).data).length := by
    rw [length_fullId, hsuf]
    omega
  rw [aliasMid, harith, hs, drop12_append, List.take_left]

/-- The constructed full identifier always satisfies the alias-match regex
for its own alias. -/
lemma aliasMatchCore_fullId (n : Nat) (nick : Str) :
    aliasMatchCore nick (fullId n nick) = true := by
  have hd := repr_digits n
  rw [aliasMatchCore, aliasMid_fullId]
  simp [hd.1, List.all_eq_true]
  exact ⟨hd.2, rfl⟩

/-- C4 (counterexample): for `n = 0` and the alias `"x\ny"` — an alias with
no `_content` suffix ambiguity — short-name extraction does not invert the
full identifier, because `.` in the extraction regex does not match a
newline; the round-trip claim is false as stated for such aliases. -/
theorem claim_C4_counterexample :
    extract_short_name (fullId 0 "x\ny".data) ≠ "x\ny".data ∧
      extract_short_name (fullId 0 "x\ny".data) = fullId 0 "x\ny".data := by
  constructor
  · decide
  · decide

/-- C4 (amended): for every `n` and every nonempty alias containing no
newline character, with `full = "user_custom_" ++ n ++ "_" ++ alias ++
"_content"`: `extract_short` recovers the alias from `full`, and resolving
the alias against the listing `[full]` yields `full`. -/
theorem claim_C4_roundtrip (n : Nat) (nick : Str) (hne : nick ≠ [])
    (hnl : '\n' ∉ nick) :
    extract_short_name (fullId n nick) = nick ∧
      resolve_dataset_name (.ok (.list [.str (fullId n nick)])) nick =
        some (fullId n nick) := by
  have hd := repr_digits n
  have hs : fullId n nick =
      "user_custom_".data ++
        ((Nat.repr n).data ++ ('_' :: (nick ++ "_content".data))) := rfl
  have hsplit := takeWhile_all_append Char.isDigit (Nat.repr n).data '_'
    (nick ++ "_content".data) hd.2 (by decide)
  constructor
  · have hcap : capture8 (nick ++ "_content".data) = nick := by
      have h8 : ("_content".data).length = 8 := by decide
      have harith : (nick ++ "_content".data).length - 8 = nick.length := by
        simp [List.length_append, h8]
      rw [capture8, harith, List.take_left]
    have hcore : reExtractCore (nick ++ "_content".data) = some nick := by
      rw [reExtractCore, hcap, if_pos ⟨hne, hnl, rfl⟩]
    have hre : reExtract (fullId n nick) = some nick := by
      rw [reExtract, hs, take12_append, if_pos rfl, drop12_append,
        hsplit.1, hsplit.2, if_neg hd.1]
      show reExtractDollar (nick ++ "_content".data) = some nick
      rw [reExtractDollar, hcore]
    rw [extract_short_name, hre]
  · have hmatch : aliasMatch nick (fullId n nick) = true := by
      rw [aliasMatch, aliasMatchCore_fullId]
      rfl
    have hnemem : nick ∉ [fullId n nick] := by
      intro hmem
      have heq : nick = fullId n nick := by simpa using hmem
      have hlen := congrArg List.length heq
      rw [length_fullId] at hlen
      have hpos : 0 < ((Nat.repr n).data).length := List.length_pos.mpr hd.1
      omega
    have h := resolve_list_strs [fullId n nick] nick
    simp only [List.map_cons, List.map_nil] at h
    rw [h, if_neg hnemem]
    simp [List.filter_cons, hmatch]

theorem claim_C4_witness :
    extract_short_name (fullId 7 "docs".data) = "docs".data ∧
      resolve_dataset_name (.ok (.list [.str (fullId 7 "docs".data)]))
        "docs".data = some (fullId 7 "docs".data) :=
  claim_C4_roundtrip 7 "docs".data (by decide) (by decide)

lemma reExtractCore_sound {r a : Str} (h : reExtractCore r = some a) :
    a ≠ [] ∧ '\n' ∉ a ∧ r = a ++ "_content".data := by
  rw [reExtractCore] at h
  split at h
  · rename_i hcond
    injection h with h'
    rw [h'] at hcond
    exact hcond
  · exact Option.noConfusion h

lemma reExtractDollar_sound {r a : Str} (h : reExtractDollar r = some a) :
    ∃ t, (t = [] ∨ t = ['\n']) ∧ a ≠ [] ∧ '\n' ∉ a ∧
      r = a ++ "_content".data ++ t := by
  cases hc : reExtractCore r with
  | some x =>
    simp only [reExtractDollar, hc] at h
    have h' : x = a := by simpa using h
    obtain ⟨h1, h2, h3⟩ := reExtractCore_sound hc
    rw [h'] at h1 h2 h3
    exact ⟨[], Or.inl rfl, h1, h2, by simpa using h3⟩
  | none =>
    simp only [reExtractDollar, hc] at h
    split at h
    · rename_i hlast
      obtain ⟨h1, h2, h3⟩ := reExtractCore_sound h
      refine ⟨['\n'], Or.inr rfl, h1, h2, ?_⟩
      have hne : r ≠ [] := by
        intro h0
        rw [h0] at hlast
        exact Option.noConfusion hlast
      have hr := List.dropLast_append_getLast hne
      have hlast' : r.getLast hne = '\n' := by
        have hgl := List.getLast?_eq_getLast r hne
        rw [hlast] at hgl
        injection hgl with hgl'
        exact hgl'.symm
      rw [← hr, h3, hlast']
    · exact Option.noConfusion h

/-- A successful run of the extraction regex exhibits a decomposition of the
input in the sense of `matchesFullPattern`. -/
lemma reExtract_sound {s a : Str} (h : reExtract s = some a) :
    matchesFullPattern s := by
  rw [reExtract] at h
  split at h
  case isFalse => exact Option.noConfusion h
  case isTrue htake =>
    split at h
    case isTrue => exact Option.noConfusion h
    case isFalse hdne =>
      cases hdw : (s.drop 12).dropWhile Char.isDigit with
      | nil =>
        rw [hdw] at h
        exact Option.noConfusion h
      | cons c r3 =>
        rw [hdw] at h
        simp only [reExtractAfterDigits] at h
        by_cases hc : c = '_'
        · rw [if_pos hc] at h
          subst hc
          obtain ⟨t, ht, ha1, ha2, hr3⟩ := reExtractDollar_sound h
          refine ⟨(s.drop 12).takeWhile Char.isDigit, a, t, hdne,
            fun c' hc' => List.mem_takeWhile_imp hc', ha1, ha2, ht, ?_⟩
          have hdsplit := List.takeWhile_append_dropWhile
            Char.isDigit (s.drop 12)
          have heq : s = List.take 12 s ++ List.drop 12 s :=
            (List.take_append_drop 12 s).symm
          rw [htake, ← hdsplit, hdw, hr3] at heq
          exact heq.trans (by simp)
        · rw [if_neg hc] at h
          exact Option.noConfusion h

/-- C8: every string that does not match the full-identifier pattern
`user_custom_<digits>_(.+)_content$` is returned unchanged by
`extract_short_name`, which never raises (it is total by construction). -/
theorem claim_C8_nonmatching_unchanged (s : Str)
    (h : ¬matchesFullPattern s) : extract_short_name s = s := by
  cases hre : reExtract s with
  | none => rw [extract_short_name, hre]
  | some a => exact absurd (reExtract_sound hre) h

theorem claim_C8_witness :
    extract_short_name "hello".data = "hello".data :=
  claim_C8_nonmatching_unchanged "hello".data (by
    rintro ⟨d, x, t, hd, -, hx, -, -, heq⟩
    have h5 : ("hello".data).length = 5 := by decide
    have h12 : ("user_custom_".data).length = 12 := by decide
    have h8 : ("_content".data).length = 8 := by decide
    rw [heq] at h5
    simp [List.length_append, h12, h8] at h5)

lemma collectMatches_mem (name : Str) :
    ∀ (elems : List PyVal) (ms : List Str),
      collectMatches name elems = .ok ms →
      ∀ m ∈ ms, PyVal.str m ∈ elems ∧ aliasMatch name m = true := by
  intro elems
  induction elems with
  | nil =>
    intro ms h m hm
    rw [collectMatches] at h
    injection h with h'
    rw [← h'] at hm
    simp at hm
  | cons v rest ih =>
    intro ms h m hm
    cases v with
    | str s =>
      rw [collectMatches] at h
      cases hr : collectMatches name rest with
      | error e =>
        rw [hr] at h
        exact Except.noConfusion h
      | ok ms' =>
        rw [hr] at h
        injection h with h'
        rw [← h'] at hm
        by_cases hmx : aliasMatch name s = true
        · rw [if_pos hmx] at hm
          rcases List.mem_cons.mp hm with h1 | h1
          · subst h1
            exact ⟨by simp, hmx⟩
          · obtain ⟨h2, h3⟩ := ih ms' hr m h1
            exact ⟨by simp [h2], h3⟩
        · rw [if_neg hmx] at hm
          obtain ⟨h2, h3⟩ := ih ms' hr m hm
          exact ⟨by simp [h2], h3⟩
    | none => simp [collectMatches] at h
    | bool b => simp [collectMatches] at h
    | int n => simp [collectMatches] at h
    | float mant dec => simp [collectMatches] at h
    | list xs => simp [collectMatches] at h
    | dict es => simp [collectMatches] at h

lemma aliasMatchCore_length {name s : Str}
    (h : aliasMatchCore name s = true) : 12 ≤ s.length := by
  rw [aliasMatchCore] at h
  simp only [Bool.and_eq_true, decide_eq_true_eq] at h
  obtain ⟨-, h3⟩ := h
  have hlen := congrArg List.length h3
  have h12 : ("user_custom_".data).length = 12 := by decide
  simp [List.length_append, h12] at hlen
  omega

lemma aliasMatch_length {name s : Str} (h : aliasMatch name s = true) :
    12 ≤ s.length := by
  simp only [aliasMatch, Bool.or_eq_true, Bool.and_eq_true] at h
  rcases h with h1 | ⟨-, h3⟩
  · exact aliasMatchCore_length h1
  · have hcore := aliasMatchCore_length h3
    have hd : s.dropLast.length = s.length - 1 := List.length_dropLast s
    omega

lemma pyContains_list_eq (s : Str) (xs : List PyVal) :
    pyContains s (.list xs) = .ok (xs.any (strEqVal s)) := rfl

lemma pyContains_dict_eq (s : Str) (es : List (Str × PyVal)) :
    pyContains s (.dict es) = .ok (es.any fun e => decide (e.1 = s)) := rfl

/-- The defining case split of `resolveFrom`, stated as one equation so the
nested matches can be reduced by rewriting their scrutinees. -/
lemma resolveFrom_eq (all : PyVal) (name : Str) :
    resolveFrom all name =
      match pyContains name all with
      | .error e => .error e
      | .ok true => .ok (some name)
      | .ok false =>
        match resolveFrom.pyElems all with
        | .error e => .error e
        | .ok elems =>
          match collectMatches name elems with
          | .error e => .error e
          | .ok [] => .ok Option.none
          | .ok (m :: _) => .ok (some m) := rfl

/-- A string found by the pattern comprehension is contained in the original
container, hence Python's `in` test accepts it on the second run. -/
lemma pyContains_of_match {all : PyVal} {name m : Str} {elems : List PyVal}
    {ms : List Str}
    (hnc : pyContains name all = .ok false)
    (hpe : resolveFrom.pyElems all = .ok elems)
    (hcm : collectMatches name elems = .ok ms)
    (hm : m ∈ ms) :
    pyContains m all = .ok true := by
  obtain ⟨hmem, hmatch⟩ := collectMatches_mem name elems ms hcm m hm
  cases all with
  | list xs =>
    have helems : xs = elems := by
      have h' : Except.ok (ε := Unit) xs = .ok elems := hpe
      simpa using h'
    subst helems
    rw [pyContains_list_eq]
    have hany : xs.any (strEqVal m) = true :=
      List.any_eq_true.mpr ⟨PyVal.str m, hmem, by simp [strEqVal]⟩
    rw [hany]
  | str t =>
    have helems : t.map (fun ch => PyVal.str [ch]) = elems := by
      have h' : Except.ok (ε := Unit) (t.map (fun ch => PyVal.str [ch])) =
          .ok elems := hpe
      simpa using h'
    subst helems
    obtain ⟨ch, -, hch⟩ := List.mem_map.mp hmem
    have hm1 : m = [ch] := by
      have := hch.symm
      simpa using this
    have hlen := aliasMatch_length hmatch
    rw [hm1] at hlen
    simp at hlen
  | dict es =>
    have helems : es.map (fun e => PyVal.str e.1) = elems := by
      have h' : Except.ok (ε := Unit) (es.map (fun e => PyVal.str e.1)) =
          .ok elems := hpe
      simpa using h'
    subst helems
    obtain ⟨e, he, hch⟩ := List.mem_map.mp hmem
    have hm1 : e.1 = m := by
      simpa using hch
    rw [pyContains_dict_eq]
    have hany : (es.any fun e => decide (e.1 = m)) = true :=
      List.any_eq_true.mpr ⟨e, he, by simp [hm1]⟩
    rw [hany]
  | none => exact Except.noConfusion hnc
  | bool b => exact Except.noConfusion hnc
  | int n => exact Except.noConfusion hnc
  | float mant dec => exact Except.noConfusion hnc

/-- C9: resolution is idempotent — whenever a resolution over a fixed listing
outcome returns an identifier `r`, resolving `r` over the same listing
returns `r` again — and a resolution consumes exactly one listing call from
the pending-response queue, leaving the rest untouched (it performs no other
effect). -/
theorem claim_C9_idempotent
    (lr : Except Unit PyVal) (c r : Str)
    (rest : List (Except Unit PyVal))
    (h : resolve_dataset_name lr c = some r) :
    resolve_dataset_name lr r = some r ∧
      resolveConsume (lr :: rest) c = some (some r, rest) := by
  refine ⟨?_, by rw [resolveConsume, h]⟩
  cases lr with
  | error e =>
    have h' : some c = some r := h
    injection h' with h''
    rw [← h'']
    rfl
  | ok resp =>
    cases hb : resolveBody resp c with
    | error e =>
      have h' : some c = some r := by
        rw [resolve_dataset_name, hb] at h
        exact h
      injection h' with h''
      rw [← h'']
      simp [resolve_dataset_name, hb]
    | ok ro =>
      have h' : ro = some r := by
        rw [resolve_dataset_name, hb] at h
        exact h
      subst h'
      cases hg : getAllDatasets resp with
      | error e =>
        rw [resolveBody, hg] at hb
        exact Except.noConfusion hb
      | ok oall =>
        cases oall with
        | none =>
          rw [resolveBody, hg] at hb
          injection hb with hb'
          exact Option.noConfusion hb'
        | some all =>
          rw [resolveBody, hg] at hb
          have hgoal : resolveFrom all r = .ok (some r) := by
            cases hpc : pyContains c all with
            | error e =>
              simp only [resolveFrom_eq, hpc] at hb
              exact Except.noConfusion hb
            | ok b =>
              cases b with
              | true =>
                simp only [resolveFrom_eq, hpc, Except.ok.injEq,
                  Option.some.injEq] at hb
                subst hb
                simp [resolveFrom_eq, hpc]
              | false =>
                cases hpe : resolveFrom.pyElems all with
                | error e =>
                  simp only [resolveFrom_eq, hpc, hpe] at hb
                  exact Except.noConfusion hb
                | ok elems =>
                  cases hcm : collectMatches c elems with
                  | error e =>
                    simp only [resolveFrom_eq, hpc, hpe, hcm] at hb
                    exact Except.noConfusion hb
                  | ok ms =>
                    cases ms with
                    | nil =>
                      simp only [resolveFrom_eq, hpc, hpe, hcm,
                        Except.ok.injEq] at hb
                      exact Option.noConfusion hb
                    | cons m ms2 =>
                      simp only [resolveFrom_eq, hpc, hpe, hcm,
                        Except.ok.injEq, Option.some.injEq] at hb
                      have hmem : m ∈ m :: ms2 := by simp
                      have hcont := pyContains_of_match hpc hpe hcm hmem
                      rw [hb] at hcont
                      simp [resolveFrom_eq, hcont]
          simp [resolve_dataset_name, resolveBody, hg, hgoal]

theorem claim_C9_witness :
    resolve_dataset_name
        (.ok (.list [.str "user_custom_1_docs_content".data]))
        "user_custom_1_docs_content".data =
      some "user_custom_1_docs_content".data ∧
      resolveConsume
          [.ok (.list [.str "user_custom_1_docs_content".data]),
           .error ()] "docs".data =
        some (some "user_custom_1_docs_content".data, [.error ()]) :=
  claim_C9_idempotent
    (.ok (.list [.str "user_custom_1_docs_content".data]))
    "docs".data "user_custom_1_docs_content".data [.error ()] (by decide)

end AskSage
